import Mathlib

/-!
# A shallow embedding of the `rust_invaders` simulation core

This file embeds the game systems of the `rust_invaders` repository
(files `src/main.rs`, `src/enemy.rs`, `src/player.rs` and the `client`
revision `client/src/main.rs`, `client/src/player.rs`) as pure Lean
functions over an explicit world state, and proves the specification
claims about them.

Modelling conventions:
* `f32` coordinates become `ℚ`; the `u32` counters `Score`, `HighScore`,
  `MaxEnemies` become `ℕ`, while `EnemyCount` becomes `ℤ` so that a
  decrement below zero (a `u32` underflow in Rust) is visible as a
  negative value.
* Bevy entities are kept in one list per marker-component combination
  (the code only ever queries by those combinations): `enemies`,
  `playerLasers` (`Laser` + `FromPlayer`), `enemyLasers`
  (`Laser` + `FromEnemy`), `explosions`, and the singleton `player`.
* Bevy `Commands` (deferred spawn/despawn) are applied at the end of the
  system that issued them, before the next system runs; this follows the
  design's stated frame contract that later systems in a frame observe
  all destructions and creations made by earlier systems.  The
  `despawned_entities` skip-sets inside the collision systems are
  realised by removing a consumed entity from the pool scanned by the
  remaining iterations, which is exactly what the sets achieve.
* Randomness (`rand::rng`) and the two 1-second interval timers are
  oracles supplied in the per-frame `Input`; `rng.random_range` bounds
  appear as hypotheses where a claim mentions them.
* `NextState::set` is a pending transition applied between frames
  (`applyStateTransition`), and `run_if(in_state(..))` guards read the
  state current for the whole frame, as in Bevy.
* Bevy leaves the relative order of `Update` systems unspecified;
  `runUpdate` fixes one order.  The per-system lemmas below are proved
  for arbitrary world states, so they do not depend on that choice.
-/

namespace RustInvaders

/-- 2D vector over `ℚ` (the `x`/`y` part of a Bevy `Vec2`/`Vec3`). -/
structure Vec2 where
  x : ℚ
  y : ℚ
deriving DecidableEq

/-- Componentwise vector addition. -/
def Vec2.add (a b : Vec2) : Vec2 := ⟨a.x + b.x, a.y + b.y⟩

/-- Componentwise (Hadamard) product, used for `size * scale`. -/
def Vec2.hmul (a b : Vec2) : Vec2 := ⟨a.x * b.x, a.y * b.y⟩

/-- Componentwise halving, used for `(size * scale) / 2.0`. -/
def Vec2.half (a : Vec2) : Vec2 := ⟨a.x / 2, a.y / 2⟩

/-- `SPRITE_SCALE` (main.rs). -/
def SPRITE_SCALE : ℚ := 1 / 2

/-- `BASE_SPEED` (main.rs). -/
def BASE_SPEED : ℚ := 600

/-- `PLAYER_SIZE` (main.rs). -/
def PLAYER_SIZE : Vec2 := ⟨144, 75⟩

/-- `PLAYER_LASER_SIZE` (main.rs). -/
def PLAYER_LASER_SIZE : Vec2 := ⟨9, 54⟩

/-- `PLAYER_MAX_LASERS` (client/src/main.rs). -/
def PLAYER_MAX_LASERS : ℕ := 10

/-- `ENEMY_SIZE` (main.rs). -/
def ENEMY_SIZE : Vec2 := ⟨144, 75⟩

/-- `ENEMY_LASER_SIZE` (main.rs). -/
def ENEMY_LASER_SIZE : Vec2 := ⟨17, 55⟩

/-- `EXPLOSION_LEN` (main.rs). -/
def EXPLOSION_LEN : ℕ := 16

/-- `LASER_UPGRADE_SCORE` (client/src/main.rs). -/
def LASER_UPGRADE_SCORE : ℕ := 50

/-- The `WinSize` resource. -/
structure WinSize where
  w : ℚ
  h : ℚ
deriving DecidableEq

/-- The `GameState` states enum (main.rs). -/
inductive GameState where
  | Startup
  | MainMenu
  | Playing
  | GameOver
deriving DecidableEq

/-- One movable entity: the `Transform` (translation/scale), `Velocity`,
`SpriteSize` and `Movable` components of a player, enemy or laser.
`altSprite` records which of the two player-laser images the sprite uses
(`laser_green.png` when spawned upgraded); it is `false` for every other
entity kind. -/
structure Mob where
  pos : Vec2
  vel : Vec2
  scale : Vec2
  spriteSize : Vec2
  autoDespawn : Bool
  altSprite : Bool
deriving DecidableEq

/-- An `Explosion` entity: its position and the texture-atlas frame
index.  The `ExplosionTimer` component lives in the repository's
`components.rs`, which is not part of the snapshot; its periodic firing
is therefore supplied by the per-frame oracle `Input.animTick`. -/
structure Explosion where
  pos : Vec2
  index : ℕ
deriving DecidableEq

/-- The whole mutable game state: the Bevy resources (`Score`,
`HighScore`, `EnemyCount`, `MaxEnemies`, `LaserUpgrage`), the game-flow
state with its pending transition, and the live entities.  `menuTexts`
counts the UI text entities carrying the `MainMenu` marker. -/
structure World where
  state : GameState
  nextState : Option GameState
  score : ℕ
  highScore : ℕ
  enemyCount : ℤ
  maxEnemies : ℕ
  laserUpgrade : Bool
  player : Option Mob
  enemies : List Mob
  playerLasers : List Mob
  enemyLasers : List Mob
  explosions : List Explosion
  menuTexts : ℕ
deriving DecidableEq

/-- Per-frame external input: elapsed time, key queries
(`pressed` = level, `just_pressed` = rising edge), the two 1-second
interval timers (`on_timer`), and the random-number oracles.
`randX`/`randY` stand for the `rng.random_range` draws of `enemy_spawn`,
`drift` for the per-enemy velocity perturbation of `enemy_move`, and
`animTick` for each explosion timer having finished this frame. -/
structure Input where
  delta : ℚ
  confirmPressed : Bool
  confirmJustPressed : Bool
  firePressed : Bool
  fireJustPressed : Bool
  leftPressed : Bool
  rightPressed : Bool
  spawnTick : Bool
  shootTick : Bool
  randX : ℚ
  randY : ℚ
  drift : ℕ → Vec2
  animTick : ℕ → Bool

/-- `Aabb2d::new(c, h)` has corners `c - h` and `c + h`;
`Aabb2d::intersects` checks `min₁ ≤ max₂ ∧ max₁ ≥ min₂` on both axes
(inclusive bounds). -/
def aabbIntersects (c1 h1 c2 h2 : Vec2) : Bool :=
  decide (c1.x - h1.x ≤ c2.x + h2.x) && decide (c1.x + h1.x ≥ c2.x - h2.x) &&
  decide (c1.y - h1.y ≤ c2.y + h2.y) && decide (c1.y + h1.y ≥ c2.y - h2.y)

/-- Half extent of an entity's bounding box: `(sprite_size * scale) / 2.0`. -/
def halfExtent (m : Mob) : Vec2 := Vec2.half (Vec2.hmul m.spriteSize m.scale)

/-- The collision test both collision systems perform on a pair. -/
def collides (a b : Mob) : Bool :=
  aabbIntersects a.pos (halfExtent a) b.pos (halfExtent b)

/-- `start_game` (client/src/main.rs 210–224, identically
src/main.rs 161–175): if `input.pressed(KeyCode::Enter)` — a level
query, not `just_pressed` — despawn every `MainMenu` entity, set the
score to 0 and request the `Playing` state. -/
def start_game (inp : Input) (w : World) : World :=
  if inp.confirmPressed then
    { w with menuTexts := 0, score := 0, nextState := some GameState.Playing }
  else w

/-- `game_over` (client/src/main.rs 226–269): every frame spent in
`GameOver` it resets `MaxEnemies` to 3 and the laser upgrade to false,
despawns each remaining enemy decrementing `EnemyCount` once per enemy,
and then, only when no `Explosion` entity is live, updates the high
score when the score exceeds it, spawns the menu text and requests
`MainMenu`. -/
def game_over (w : World) : World :=
  let w1 : World :=
    { w with maxEnemies := 3, laserUpgrade := false,
             enemyCount := w.enemyCount - w.enemies.length, enemies := [] }
  if w1.explosions.length = 0 then
    { w1 with
        highScore := if w1.score > w1.highScore then w1.score else w1.highScore,
        menuTexts := w1.menuTexts + 1,
        nextState := some GameState.MainMenu }
  else w1

/-- `update_scoreboard` (client/src/main.rs 271–286): sets the enemy cap
to 10 when the score is exactly 5, and the laser-velocity upgrade when
it is exactly `LASER_UPGRADE_SCORE`; equality tests, not thresholds. -/
def update_scoreboard (w : World) : World :=
  let w1 : World := if w.score = 5 then { w with maxEnemies := 10 } else w
  if w1.score = LASER_UPGRADE_SCORE then { w1 with laserUpgrade := true } else w1

/-- One movement-integration step:
`translation += velocity * delta * BASE_SPEED`. -/
def integrateMob (delta : ℚ) (m : Mob) : Mob :=
  { m with pos := ⟨m.pos.x + m.vel.x * delta * BASE_SPEED,
                   m.pos.y + m.vel.y * delta * BASE_SPEED⟩ }

/-- The out-of-bounds test shared by `movement` and `enemy_move`:
outside the window half-extent plus a 200-unit margin on any side. -/
def outOfBounds (ws : WinSize) (p : Vec2) : Bool :=
  decide (p.y > ws.h / 2 + 200) || decide (p.y < -(ws.h / 2) - 200) ||
  decide (p.x > ws.w / 2 + 200) || decide (p.x < -(ws.w / 2) - 200)

/-- `movement` culls an entity when `auto_despawn` is set and it is out
of bounds. -/
def cullMob (ws : WinSize) (m : Mob) : Bool := m.autoDespawn && outOfBounds ws m.pos

/-- `movement` (client/src/main.rs 288–316): integrates every entity
with `Velocity`+`Movable`, despawns the out-of-bounds `auto_despawn`
ones, and decrements `EnemyCount` exactly for the despawned entities
that are enemies (`enemy_query.get(entity).is_ok()`). -/
def movement (ws : WinSize) (inp : Input) (w : World) : World :=
  let mv := integrateMob inp.delta
  let enemies1 := w.enemies.map mv
  { w with
      player := match w.player.map mv with
        | none => none
        | some p => if cullMob ws p then none else some p,
      enemies := enemies1.filter (fun m => ! cullMob ws m),
      enemyCount := w.enemyCount - enemies1.countP (fun m => cullMob ws m),
      playerLasers := (w.playerLasers.map mv).filter (fun m => ! cullMob ws m),
      enemyLasers := (w.enemyLasers.map mv).filter (fun m => ! cullMob ws m) }

/-- The enemy freshly spawned by `enemy_spawn` (src/enemy.rs 38–52):
random position, `z`-layer dropped, scale `SPRITE_SCALE`, zero velocity,
`auto_despawn: false`. -/
def freshEnemy (x y : ℚ) : Mob :=
  { pos := ⟨x, y⟩, vel := ⟨0, 0⟩,
    scale := ⟨SPRITE_SCALE, SPRITE_SCALE⟩, spriteSize := ENEMY_SIZE,
    autoDespawn := false, altSprite := false }

/-- `enemy_spawn` (src/enemy.rs 26–55): when the enemy count is below
the cap, spawn one enemy at a random position inside the window shrunk
by a 100-unit border (`w_span = w/2 - 100`, `x ∈ [-w_span, w_span)`,
likewise for `y`) and increment the count.  The cap is the `MaxEnemies`
resource of the client revision (the constant `MAX_ENEMIES` in the
`src` revision); `client/src/enemy.rs` is absent from the snapshot, so
the resource-valued cap follows the design's §4.3. -/
def enemy_spawn (inp : Input) (w : World) : World :=
  if w.enemyCount < (w.maxEnemies : ℤ) then
    { w with enemies := freshEnemy inp.randX inp.randY :: w.enemies,
             enemyCount := w.enemyCount + 1 }
  else w

/-- An `EnemyLaser` as spawned by `enemy_fire` (src/enemy.rs 66–81). -/
def enemyLaserAt (x y : ℚ) : Mob :=
  { pos := ⟨x, y⟩, vel := ⟨0, -1⟩,
    scale := ⟨SPRITE_SCALE, SPRITE_SCALE⟩, spriteSize := ENEMY_LASER_SIZE,
    autoDespawn := true, altSprite := false }

/-- `enemy_fire` (src/enemy.rs 57–86): for every live enemy spawn two
lasers offset `±(ENEMY_SIZE.x / 2 * SPRITE_SCALE - 25)` from its `x`,
with velocity `(0, -1)` and `auto_despawn: true`. -/
def enemy_fire (w : World) : World :=
  let off : ℚ := ENEMY_SIZE.x / 2 * SPRITE_SCALE - 25
  let fired := w.enemies.foldr
    (fun e acc =>
      enemyLaserAt (e.pos.x + off) e.pos.y ::
      enemyLaserAt (e.pos.x - off) e.pos.y :: acc)
    w.enemyLasers
  { w with enemyLasers := fired }

/-- A `PlayerLaser` as spawned by `player_fire`
(client/src/player.rs 86–105): upgraded lasers get velocity `y = 2` and
the distinct green sprite. -/
def playerLaserAt (upgrade : Bool) (x y : ℚ) : Mob :=
  { pos := ⟨x, y⟩, vel := ⟨0, if upgrade then 2 else 1⟩,
    scale := ⟨SPRITE_SCALE, SPRITE_SCALE⟩, spriteSize := PLAYER_LASER_SIZE,
    autoDespawn := true, altSprite := upgrade }

/-- `player_fire` (client/src/player.rs 65–111): when a player exists,
the fire key was just pressed (rising edge) and fewer than
`PLAYER_MAX_LASERS` player lasers are live, spawn two lasers offset
`±(PLAYER_SIZE.x / 2 * SPRITE_SCALE - 5)` from the player's `x`, 15
above its `y`. -/
def player_fire (inp : Input) (w : World) : World :=
  match w.player with
  | none => w
  | some p =>
    if inp.fireJustPressed ∧ w.playerLasers.length < PLAYER_MAX_LASERS then
      let off : ℚ := PLAYER_SIZE.x / 2 * SPRITE_SCALE - 5
      { w with playerLasers :=
          playerLaserAt w.laserUpgrade (p.pos.x + off) (p.pos.y + 15) ::
          playerLaserAt w.laserUpgrade (p.pos.x - off) (p.pos.y + 15) ::
          w.playerLasers }
    else w

/-- `enemy_move` (src/enemy.rs 88–124): perturb each enemy's velocity by
the random drift, then despawn it and decrement `EnemyCount` when its
(pre-integration) position is out of bounds. -/
def enemy_move (ws : WinSize) (inp : Input) (w : World) : World :=
  let drifted := w.enemies.enum.map
    (fun q => { q.2 with vel := Vec2.add q.2.vel (inp.drift q.1) })
  { w with
      enemies := drifted.filter (fun m => ! outOfBounds ws m.pos),
      enemyCount := w.enemyCount - drifted.countP (fun m => outOfBounds ws m.pos) }

/-- The inner loop of `player_laser_hit_enemy` for one laser: find the
first enemy of the pool that the laser's box overlaps; if one exists,
remove it and return its former position.  Enemies already consumed this
frame are no longer in the pool (they are in `despawned_entities`). -/
def hitScan (l : Mob) : List Mob → Option (List Mob × Vec2)
  | [] => none
  | e :: rest =>
    if collides l e then some (rest, e.pos)
    else
      match hitScan l rest with
      | none => none
      | some (rest', p) => some (e :: rest', p)

/-- Outcome of the player-laser/enemy pass: surviving lasers, surviving
enemies, spawned explosions, and the number of resolved collisions. -/
structure HitOutcome where
  lasers : List Mob
  enemies : List Mob
  explosions : List Explosion
  hits : ℕ
deriving DecidableEq

/-- The loop of `player_laser_hit_enemy` (client/src/main.rs 328–375):
each laser in turn scans the not-yet-consumed enemies; on the first
overlap both are consumed (the laser skips every later pair via
`despawned_entities`), an explosion is spawned at the enemy's position
with atlas index 0, and the score/count updates are tallied. -/
def plheLoop : List Mob → List Mob → HitOutcome
  | [], enemies => ⟨[], enemies, [], 0⟩
  | l :: ls, enemies =>
    match hitScan l enemies with
    | some (enemies', p) =>
      let r := plheLoop ls enemies'
      ⟨r.lasers, r.enemies, ⟨p, 0⟩ :: r.explosions, r.hits + 1⟩
    | none =>
      let r := plheLoop ls enemies
      ⟨l :: r.lasers, r.enemies, r.explosions, r.hits⟩

/-- `player_laser_hit_enemy` (client/src/main.rs 318–376, identically
src/main.rs 230–289): run the pass, add the spawned explosions,
increment `Score` and decrement `EnemyCount` once per resolved
collision. -/
def player_laser_hit_enemy (w : World) : World :=
  let r := plheLoop w.playerLasers w.enemies
  { w with playerLasers := r.lasers, enemies := r.enemies,
           explosions := r.explosions ++ w.explosions,
           score := w.score + r.hits,
           enemyCount := w.enemyCount - r.hits }

/-- The loop of `enemy_laser_hit_player` for a live player: scan the
enemy lasers in order; the first one whose box overlaps the player is
consumed together with the player, and — the player now being in
`despawned_entities` — every remaining laser is skipped and survives.
Returns the surviving lasers when a hit happened. -/
def elhpScan (p : Mob) : List Mob → Option (List Mob)
  | [] => none
  | l :: ls =>
    if collides l p then some ls
    else
      match elhpScan p ls with
      | none => none
      | some ls' => some (l :: ls')

/-- `enemy_laser_hit_player` (client/src/main.rs 378–433, identically
src/main.rs 291–346): on the first enemy-laser/player overlap, despawn
both, spawn one explosion at the player's position with atlas index 0,
and request the `GameOver` state. -/
def enemy_laser_hit_player (w : World) : World :=
  match w.player with
  | none => w
  | some p =>
    match elhpScan p w.enemyLasers with
    | none => w
    | some ls' =>
      { w with enemyLasers := ls', player := none,
               explosions := ⟨p.pos, 0⟩ :: w.explosions,
               nextState := some GameState.GameOver }

/-- `explosion_animation` (client/src/main.rs 435–451): when an
explosion's timer finished this frame (oracle `animTick`), advance its
atlas index and despawn it once the index reaches `EXPLOSION_LEN`. -/
def explosion_animation (inp : Input) (w : World) : World :=
  let aged := w.explosions.enum.filterMap
    (fun q =>
      if inp.animTick q.1 then
        if EXPLOSION_LEN ≤ q.2.index + 1 then none
        else some { q.2 with index := q.2.index + 1 }
      else some q.2)
  { w with explosions := aged }

/-- `player_input` (client/src/player.rs 37–63): set the player's `x`
velocity from the A/D level keys, zeroed at the window edge.  The edge
test uses `PLAYER_SIZE.1` (the sprite height) as the horizontal
half-width, as the source does. -/
def player_input (ws : WinSize) (inp : Input) (w : World) : World :=
  match w.player with
  | none => w
  | some p =>
    let x : ℚ := if inp.leftPressed then -1 else if inp.rightPressed then 1 else 0
    let vx : ℚ :=
      if p.pos.x < -(ws.w / 2) + PLAYER_SIZE.y / 2 ∧ x < 0 then 0
      else if p.pos.x > ws.w / 2 - PLAYER_SIZE.y / 2 ∧ x > 0 then 0
      else x
    { w with player := some { p with vel := ⟨vx, p.vel.y⟩ } }

/-- `player_spawn` (client/src/player.rs 18–35), scheduled
`OnEnter(MainMenu)`: spawn the player centred at the bottom of the
window, `auto_despawn: false`. -/
def player_spawn (ws : WinSize) (w : World) : World :=
  let p : Mob :=
    { pos := ⟨0, -(ws.h) / 2 + PLAYER_SIZE.y / 2 * SPRITE_SCALE + 5⟩,
      vel := ⟨0, 0⟩,
      scale := ⟨SPRITE_SCALE, SPRITE_SCALE⟩, spriteSize := PLAYER_SIZE,
      autoDespawn := false, altSprite := false }
  { w with player := some p }

/-- The tail of the `Update` schedule: every system except the two
state-machine systems (`game_over`, `start_game`) that run first in this
embedding's order. -/
def updateTail (ws : WinSize) (inp : Input) (w : World) : World :=
  let w3 := player_input ws inp w
  let w4 := player_fire inp w3
  let w5 := if inp.spawnTick then enemy_spawn inp w4 else w4
  let w6 := enemy_move ws inp w5
  let w7 := if inp.shootTick then enemy_fire w6 else w6
  let w8 := movement ws inp w7
  let w9 := if w8.state = GameState.Playing then player_laser_hit_enemy w8 else w8
  let w10 := if w9.state = GameState.Playing then enemy_laser_hit_player w9 else w9
  let w11 := if w10.state = GameState.Playing then update_scoreboard w10 else w10
  explosion_animation inp w11

/-- One pass of the `Update` schedule, with the `run_if(in_state(..))`
and `run_if(on_timer(..))` guards of `main` and the plugins.  Bevy does
not order unchained `Update` systems; this embedding fixes one order and
applies each system's commands before the next system, per the design's
frame contract. -/
def runUpdate (ws : WinSize) (inp : Input) (w : World) : World :=
  let w1 := if w.state = GameState.GameOver then game_over w else w
  let w2 := if w1.state = GameState.MainMenu then start_game inp w1 else w1
  updateTail ws inp w2

/-- Bevy's `StateTransition`: apply the pending state change and run the
`OnEnter` systems of the entered state (`player_spawn` for
`MainMenu`). -/
def applyStateTransition (ws : WinSize) (w : World) : World :=
  match w.nextState with
  | none => w
  | some s =>
    if s = GameState.MainMenu then
      player_spawn ws { w with state := s, nextState := none }
    else { w with state := s, nextState := none }

/-- One whole frame: the `Update` systems followed by the state
transition. -/
def frameStep (ws : WinSize) (inp : Input) (w : World) : World :=
  applyStateTransition ws (runUpdate ws inp w)

/-- The world right after `main` inserted the resources and `setup` ran:
default `Startup` state with `MainMenu` requested, zero score, zero
enemies, cap 3, no upgrade, the menu text spawned, and the persisted
high score loaded as `hs`. -/
def initWorld (hs : ℕ) : World :=
  { state := GameState.Startup, nextState := some GameState.MainMenu,
    score := 0, highScore := hs, enemyCount := 0, maxEnemies := 3,
    laserUpgrade := false, player := none, enemies := [],
    playerLasers := [], enemyLasers := [], explosions := [], menuTexts := 1 }

/-- States reachable from a fresh session by whole frames. -/
inductive Reachable (ws : WinSize) : World → Prop
  | init (hs : ℕ) : Reachable ws (initWorld hs)
  | step {w : World} (inp : Input) :
      Reachable ws w → Reachable ws (frameStep ws inp w)

/-- The population-counter invariant: `EnemyCount` equals the number of
live `Enemy` entities. -/
def enemyInv (w : World) : Prop := w.enemyCount = (w.enemies.length : ℤ)

/-- The 800×800 window `main` requests. -/
def ws800 : WinSize := ⟨800, 800⟩

/-- A frame with no input, no timer firing and zero elapsed time. -/
def quietInput : Input :=
  { delta := 0, confirmPressed := false, confirmJustPressed := false,
    firePressed := false, fireJustPressed := false, leftPressed := false,
    rightPressed := false, spawnTick := false, shootTick := false,
    randX := 0, randY := 0, drift := fun _ => ⟨0, 0⟩, animTick := fun _ => false }

/-- A quiet frame during which the enemy-spawn timer fires. -/
def spawnInput : Input := { quietInput with spawnTick := true }

/-- A quiet frame with a rising edge on the fire key. -/
def fireInput : Input := { quietInput with fireJustPressed := true, firePressed := true }

/-- A quiet frame during which the confirm key is held down but was
pressed on an earlier frame (level high, no rising edge). -/
def heldConfirmInput : Input := { quietInput with confirmPressed := true }

/-- An idle mob at the origin with the player's sprite size. -/
def basicMob : Mob :=
  { pos := ⟨0, 0⟩, vel := ⟨0, 0⟩, scale := ⟨SPRITE_SCALE, SPRITE_SCALE⟩,
    spriteSize := PLAYER_SIZE, autoDespawn := false, altSprite := false }

/-- A `Playing` world whose player has exactly nine live lasers. -/
def nineWorld : World :=
  { (initWorld 0) with
      state := GameState.Playing, nextState := none,
      player := some basicMob,
      playerLasers := List.replicate 9 (playerLaserAt false 0 0) }

/-- A quiet frame with the fire key held down from an earlier frame
(level high, no rising edge). -/
def heldFireInput : Input := { quietInput with firePressed := true }

/-- A `MainMenu` world with a leftover nonzero score. -/
def menuWorld : World :=
  { (initWorld 0) with
      state := GameState.MainMenu, nextState := none, score := 7 }

/-- A `Playing` world in which two enemy lasers overlap the player. -/
def hitWorld : World :=
  { (initWorld 0) with
      state := GameState.Playing, nextState := none,
      player := some basicMob,
      enemyLasers := [enemyLaserAt 0 0, enemyLaserAt 0 0] }

/-- A `Playing` world with score 4 in which two player lasers each
overlap one of two distinct enemies, so one collision pass resolves two
hits at once. -/
def pairWorld : World :=
  { (initWorld 0) with
      state := GameState.Playing, nextState := none, score := 4,
      enemyCount := 2,
      enemies := [freshEnemy 0 0, freshEnemy 300 0],
      playerLasers := [playerLaserAt false 0 0, playerLaserAt false 300 0] }

/-- A `GameOver` world with one explosion still animating and a session
score above the persisted high score. -/
def goWorld : World :=
  { (initWorld 0) with
      state := GameState.GameOver, nextState := none,
      score := 10, highScore := 5,
      explosions := [⟨⟨0, 0⟩, 0⟩] }

/-- The same `GameOver` world after its explosion finished. -/
def doneWorld : World := { goWorld with explosions := [] }

/-- A `Playing` world in which both progression step-ups have fired. -/
def capWorld : World :=
  { (initWorld 0) with
      state := GameState.Playing, nextState := none,
      maxEnemies := 10, laserUpgrade := true }

theorem enemyInv_start_game (inp : Input) (w : World) (h : enemyInv w) :
    enemyInv (start_game inp w) := by
  unfold enemyInv start_game at *
  split <;> simpa using h

theorem enemyInv_game_over (w : World) (h : enemyInv w) :
    enemyInv (game_over w) := by
  unfold enemyInv at h ⊢
  simp only [game_over]
  split <;> simp <;> omega

theorem enemyInv_update_scoreboard (w : World) (h : enemyInv w) :
    enemyInv (update_scoreboard w) := by
  unfold enemyInv at h ⊢
  simp only [update_scoreboard]
  split <;> split <;> simpa using h

theorem enemyInv_enemy_spawn (inp : Input) (w : World) (h : enemyInv w) :
    enemyInv (enemy_spawn inp w) := by
  unfold enemyInv enemy_spawn at *
  split
  · simp
    omega
  · exact h

theorem enemyInv_enemy_fire (w : World) (h : enemyInv w) :
    enemyInv (enemy_fire w) := by
  unfold enemyInv enemy_fire at *
  simpa using h

theorem enemyInv_player_fire (inp : Input) (w : World) (h : enemyInv w) :
    enemyInv (player_fire inp w) := by
  unfold enemyInv at h ⊢
  cases hp : w.player
  · simpa [player_fire, hp] using h
  · simp only [player_fire, hp]
    split <;> simpa using h

theorem enemyInv_player_input (ws : WinSize) (inp : Input) (w : World) (h : enemyInv w) :
    enemyInv (player_input ws inp w) := by
  unfold enemyInv player_input at *
  cases w.player <;> simpa using h

theorem enemyInv_movement (ws : WinSize) (inp : Input) (w : World) (h : enemyInv w) :
    enemyInv (movement ws inp w) := by
  unfold enemyInv movement at *
  have hlen := @List.length_eq_length_filter_add _
    (w.enemies.map (integrateMob inp.delta)) (fun m => cullMob ws m)
  have hc := List.countP_eq_length_filter
    (fun m => cullMob ws m) (w.enemies.map (integrateMob inp.delta))
  simp only [List.length_map] at hlen
  simp only []
  rw [hc]
  omega

theorem enemyInv_enemy_move (ws : WinSize) (inp : Input) (w : World) (h : enemyInv w) :
    enemyInv (enemy_move ws inp w) := by
  unfold enemyInv enemy_move at *
  set drifted := w.enemies.enum.map
    (fun q => { q.2 with vel := Vec2.add q.2.vel (inp.drift q.1) }) with hd
  have hlen : drifted.length = w.enemies.length := by
    simp [hd]
  have hsplit := @List.length_eq_length_filter_add _
    drifted (fun m => outOfBounds ws m.pos)
  have hc := List.countP_eq_length_filter
    (fun m => outOfBounds ws m.pos) drifted
  simp only []
  rw [hc]
  omega

theorem hitScan_some_length {l : Mob} :
    ∀ {es es' : List Mob} {p : Vec2},
      hitScan l es = some (es', p) → es'.length + 1 = es.length := by
  intro es
  induction es with
  | nil => intro es' p h; simp [hitScan] at h
  | cons e rest ih =>
    intro es' p h
    unfold hitScan at h
    by_cases hc : collides l e
    · simp [hc] at h
      simp [← h.1]
    · simp [hc] at h
      cases hr : hitScan l rest with
      | none => rw [hr] at h; simp at h
      | some q =>
        rw [hr] at h
        simp at h
        have := @ih q.1 q.2 (by rw [hr])
        rw [← h.1]
        simp [← h.2] at this ⊢
        omega

theorem plheLoop_enemies_length (ls : List Mob) :
    ∀ es : List Mob,
      (plheLoop ls es).enemies.length + (plheLoop ls es).hits = es.length := by
  induction ls with
  | nil => intro es; simp [plheLoop]
  | cons l ls ih =>
    intro es
    unfold plheLoop
    cases hs : hitScan l es with
    | none => simpa using ih es
    | some q =>
      have := @hitScan_some_length l es q.1 q.2 (by rw [hs])
      have h2 := ih q.1
      simp
      omega

theorem plheLoop_lasers_length (ls : List Mob) :
    ∀ es : List Mob,
      (plheLoop ls es).lasers.length + (plheLoop ls es).hits = ls.length := by
  induction ls with
  | nil => intro es; simp [plheLoop]
  | cons l ls ih =>
    intro es
    unfold plheLoop
    cases hs : hitScan l es with
    | none => simp; have := ih es; omega
    | some q => simp; have := ih q.1; omega

theorem plheLoop_explosions_length (ls : List Mob) :
    ∀ es : List Mob,
      (plheLoop ls es).explosions.length = (plheLoop ls es).hits := by
  induction ls with
  | nil => intro es; simp [plheLoop]
  | cons l ls ih =>
    intro es
    unfold plheLoop
    cases hs : hitScan l es with
    | none => simpa using ih es
    | some q => simpa using ih q.1

theorem enemyInv_player_laser_hit_enemy (w : World) (h : enemyInv w) :
    enemyInv (player_laser_hit_enemy w) := by
  unfold enemyInv player_laser_hit_enemy at *
  have := plheLoop_enemies_length w.playerLasers w.enemies
  simp only []
  omega

theorem enemyInv_enemy_laser_hit_player (w : World) (h : enemyInv w) :
    enemyInv (enemy_laser_hit_player w) := by
  unfold enemyInv at h ⊢
  cases hp : w.player with
  | none => simpa [enemy_laser_hit_player, hp] using h
  | some p =>
    cases hs : elhpScan p w.enemyLasers <;>
      simpa [enemy_laser_hit_player, hp, hs] using h

theorem enemyInv_explosion_animation (inp : Input) (w : World) (h : enemyInv w) :
    enemyInv (explosion_animation inp w) := by
  unfold enemyInv explosion_animation at *
  simpa using h

theorem enemyInv_player_spawn (ws : WinSize) (w : World) (h : enemyInv w) :
    enemyInv (player_spawn ws w) := by
  unfold enemyInv player_spawn at *
  simpa using h

theorem enemyInv_applyStateTransition (ws : WinSize) (w : World) (h : enemyInv w) :
    enemyInv (applyStateTransition ws w) := by
  unfold enemyInv at h ⊢
  cases hn : w.nextState with
  | none => simpa [applyStateTransition, hn] using h
  | some s =>
    simp only [applyStateTransition, hn]
    split <;> simpa [player_spawn] using h

theorem enemyInv_ite (c : Prop) [Decidable c] (f : World → World) (x : World)
    (hf : enemyInv x → enemyInv (f x)) (hx : enemyInv x) :
    enemyInv (if c then f x else x) := by
  split
  · exact hf hx
  · exact hx

theorem enemyInv_frameStep (ws : WinSize) (inp : Input) (w : World) (h : enemyInv w) :
    enemyInv (frameStep ws inp w) := by
  simp only [frameStep, runUpdate, updateTail]
  apply enemyInv_applyStateTransition
  apply enemyInv_explosion_animation
  apply enemyInv_ite _ _ _ (enemyInv_update_scoreboard _)
  apply enemyInv_ite _ _ _ (enemyInv_enemy_laser_hit_player _)
  apply enemyInv_ite _ _ _ (enemyInv_player_laser_hit_enemy _)
  apply enemyInv_movement
  apply enemyInv_ite _ _ _ (enemyInv_enemy_fire _)
  apply enemyInv_enemy_move
  apply enemyInv_ite _ _ _ (enemyInv_enemy_spawn inp _)
  apply enemyInv_player_fire
  apply enemyInv_player_input
  apply enemyInv_ite _ _ _ (enemyInv_start_game inp _)
  apply enemyInv_ite _ _ _ (enemyInv_game_over _)
  exact h

theorem enemyInv_reachable {ws : WinSize} {w : World} (h : Reachable ws w) :
    enemyInv w := by
  induction h with
  | init hs => simp [enemyInv, initWorld]
  | step inp _ ih => exact enemyInv_frameStep _ _ _ ih

theorem ite_pres (P : World → Prop) (c : Prop) [Decidable c] (f : World → World)
    (x : World) (hf : c → P x → P (f x)) (hx : P x) : P (if c then f x else x) := by
  split
  next hc => exact hf hc hx
  next => exact hx

theorem start_game_fields (inp : Input) (w : World) :
    (start_game inp w).state = w.state ∧
    (start_game inp w).highScore = w.highScore ∧
    (start_game inp w).enemyCount = w.enemyCount ∧
    (start_game inp w).maxEnemies = w.maxEnemies ∧
    (start_game inp w).laserUpgrade = w.laserUpgrade ∧
    (start_game inp w).player = w.player ∧
    (start_game inp w).enemies = w.enemies ∧
    (start_game inp w).playerLasers = w.playerLasers ∧
    (start_game inp w).enemyLasers = w.enemyLasers ∧
    (start_game inp w).explosions = w.explosions := by
  unfold start_game
  split <;> simp

theorem game_over_fields (w : World) :
    (game_over w).state = w.state ∧
    (game_over w).score = w.score ∧
    (game_over w).player = w.player ∧
    (game_over w).playerLasers = w.playerLasers ∧
    (game_over w).enemyLasers = w.enemyLasers ∧
    (game_over w).explosions = w.explosions ∧
    (game_over w).maxEnemies = 3 ∧
    (game_over w).laserUpgrade = false ∧
    (game_over w).enemies = [] ∧
    (game_over w).enemyCount = w.enemyCount - w.enemies.length := by
  simp only [game_over]
  split <;> simp

theorem game_over_nextState (w : World) :
    (game_over w).nextState =
      if w.explosions.length = 0 then some GameState.MainMenu else w.nextState := by
  simp only [game_over]
  split <;> simp_all

theorem game_over_highScore (w : World) :
    (game_over w).highScore =
      if w.explosions.length = 0 then
        (if w.score > w.highScore then w.score else w.highScore)
      else w.highScore := by
  simp only [game_over]
  split <;> simp_all

theorem update_scoreboard_fields (w : World) :
    (update_scoreboard w).state = w.state ∧
    (update_scoreboard w).nextState = w.nextState ∧
    (update_scoreboard w).score = w.score ∧
    (update_scoreboard w).highScore = w.highScore ∧
    (update_scoreboard w).enemyCount = w.enemyCount ∧
    (update_scoreboard w).player = w.player ∧
    (update_scoreboard w).enemies = w.enemies ∧
    (update_scoreboard w).playerLasers = w.playerLasers ∧
    (update_scoreboard w).enemyLasers = w.enemyLasers ∧
    (update_scoreboard w).explosions = w.explosions := by
  simp only [update_scoreboard]
  split <;> split <;> simp

theorem update_scoreboard_maxEnemies (w : World) :
    (update_scoreboard w).maxEnemies = if w.score = 5 then 10 else w.maxEnemies := by
  simp only [update_scoreboard]
  split <;> split <;> simp_all

theorem update_scoreboard_laserUpgrade (w : World) :
    (update_scoreboard w).laserUpgrade =
      if w.score = LASER_UPGRADE_SCORE then true else w.laserUpgrade := by
  simp only [update_scoreboard]
  split <;> split <;> simp_all

theorem enemy_spawn_fields (inp : Input) (w : World) :
    (enemy_spawn inp w).state = w.state ∧
    (enemy_spawn inp w).nextState = w.nextState ∧
    (enemy_spawn inp w).score = w.score ∧
    (enemy_spawn inp w).highScore = w.highScore ∧
    (enemy_spawn inp w).maxEnemies = w.maxEnemies ∧
    (enemy_spawn inp w).laserUpgrade = w.laserUpgrade ∧
    (enemy_spawn inp w).player = w.player ∧
    (enemy_spawn inp w).playerLasers = w.playerLasers ∧
    (enemy_spawn inp w).enemyLasers = w.enemyLasers ∧
    (enemy_spawn inp w).explosions = w.explosions := by
  unfold enemy_spawn
  split <;> simp

theorem enemy_move_fields (ws : WinSize) (inp : Input) (w : World) :
    (enemy_move ws inp w).state = w.state ∧
    (enemy_move ws inp w).nextState = w.nextState ∧
    (enemy_move ws inp w).score = w.score ∧
    (enemy_move ws inp w).highScore = w.highScore ∧
    (enemy_move ws inp w).maxEnemies = w.maxEnemies ∧
    (enemy_move ws inp w).laserUpgrade = w.laserUpgrade ∧
    (enemy_move ws inp w).player = w.player ∧
    (enemy_move ws inp w).playerLasers = w.playerLasers ∧
    (enemy_move ws inp w).enemyLasers = w.enemyLasers ∧
    (enemy_move ws inp w).explosions = w.explosions := by
  simp [enemy_move]

theorem enemy_fire_fields (w : World) :
    (enemy_fire w).state = w.state ∧
    (enemy_fire w).nextState = w.nextState ∧
    (enemy_fire w).score = w.score ∧
    (enemy_fire w).highScore = w.highScore ∧
    (enemy_fire w).enemyCount = w.enemyCount ∧
    (enemy_fire w).maxEnemies = w.maxEnemies ∧
    (enemy_fire w).laserUpgrade = w.laserUpgrade ∧
    (enemy_fire w).player = w.player ∧
    (enemy_fire w).enemies = w.enemies ∧
    (enemy_fire w).playerLasers = w.playerLasers ∧
    (enemy_fire w).explosions = w.explosions := by
  simp [enemy_fire]

theorem player_fire_fields (inp : Input) (w : World) :
    (player_fire inp w).state = w.state ∧
    (player_fire inp w).nextState = w.nextState ∧
    (player_fire inp w).score = w.score ∧
    (player_fire inp w).highScore = w.highScore ∧
    (player_fire inp w).enemyCount = w.enemyCount ∧
    (player_fire inp w).maxEnemies = w.maxEnemies ∧
    (player_fire inp w).laserUpgrade = w.laserUpgrade ∧
    (player_fire inp w).player = w.player ∧
    (player_fire inp w).enemies = w.enemies ∧
    (player_fire inp w).enemyLasers = w.enemyLasers ∧
    (player_fire inp w).explosions = w.explosions := by
  cases hp : w.player with
  | none => simp [player_fire, hp]
  | some p =>
    simp only [player_fire, hp]
    split <;> simp [hp]

theorem player_input_fields (ws : WinSize) (inp : Input) (w : World) :
    (player_input ws inp w).state = w.state ∧
    (player_input ws inp w).nextState = w.nextState ∧
    (player_input ws inp w).score = w.score ∧
    (player_input ws inp w).highScore = w.highScore ∧
    (player_input ws inp w).enemyCount = w.enemyCount ∧
    (player_input ws inp w).maxEnemies = w.maxEnemies ∧
    (player_input ws inp w).laserUpgrade = w.laserUpgrade ∧
    (player_input ws inp w).enemies = w.enemies ∧
    (player_input ws inp w).playerLasers = w.playerLasers ∧
    (player_input ws inp w).enemyLasers = w.enemyLasers ∧
    (player_input ws inp w).explosions = w.explosions := by
  cases hp : w.player with
  | none => simp [player_input, hp]
  | some p => simp [player_input, hp]

theorem movement_fields (ws : WinSize) (inp : Input) (w : World) :
    (movement ws inp w).state = w.state ∧
    (movement ws inp w).nextState = w.nextState ∧
    (movement ws inp w).score = w.score ∧
    (movement ws inp w).highScore = w.highScore ∧
    (movement ws inp w).maxEnemies = w.maxEnemies ∧
    (movement ws inp w).laserUpgrade = w.laserUpgrade ∧
    (movement ws inp w).explosions = w.explosions ∧
    (movement ws inp w).menuTexts = w.menuTexts := by
  simp [movement]

theorem player_laser_hit_enemy_fields (w : World) :
    (player_laser_hit_enemy w).state = w.state ∧
    (player_laser_hit_enemy w).nextState = w.nextState ∧
    (player_laser_hit_enemy w).highScore = w.highScore ∧
    (player_laser_hit_enemy w).maxEnemies = w.maxEnemies ∧
    (player_laser_hit_enemy w).laserUpgrade = w.laserUpgrade ∧
    (player_laser_hit_enemy w).player = w.player ∧
    (player_laser_hit_enemy w).enemyLasers = w.enemyLasers ∧
    (player_laser_hit_enemy w).menuTexts = w.menuTexts := by
  simp [player_laser_hit_enemy]

theorem enemy_laser_hit_player_fields (w : World) :
    (enemy_laser_hit_player w).state = w.state ∧
    (enemy_laser_hit_player w).score = w.score ∧
    (enemy_laser_hit_player w).highScore = w.highScore ∧
    (enemy_laser_hit_player w).enemyCount = w.enemyCount ∧
    (enemy_laser_hit_player w).maxEnemies = w.maxEnemies ∧
    (enemy_laser_hit_player w).laserUpgrade = w.laserUpgrade ∧
    (enemy_laser_hit_player w).enemies = w.enemies ∧
    (enemy_laser_hit_player w).playerLasers = w.playerLasers ∧
    (enemy_laser_hit_player w).menuTexts = w.menuTexts := by
  cases hp : w.player with
  | none => simp [enemy_laser_hit_player, hp]
  | some p =>
    cases hs : elhpScan p w.enemyLasers <;>
      simp [enemy_laser_hit_player, hp, hs]

theorem explosion_animation_fields (inp : Input) (w : World) :
    (explosion_animation inp w).state = w.state ∧
    (explosion_animation inp w).nextState = w.nextState ∧
    (explosion_animation inp w).score = w.score ∧
    (explosion_animation inp w).highScore = w.highScore ∧
    (explosion_animation inp w).enemyCount = w.enemyCount ∧
    (explosion_animation inp w).maxEnemies = w.maxEnemies ∧
    (explosion_animation inp w).laserUpgrade = w.laserUpgrade ∧
    (explosion_animation inp w).player = w.player ∧
    (explosion_animation inp w).enemies = w.enemies ∧
    (explosion_animation inp w).playerLasers = w.playerLasers ∧
    (explosion_animation inp w).enemyLasers = w.enemyLasers := by
  simp [explosion_animation]

theorem player_spawn_fields (ws : WinSize) (w : World) :
    (player_spawn ws w).state = w.state ∧
    (player_spawn ws w).nextState = w.nextState ∧
    (player_spawn ws w).score = w.score ∧
    (player_spawn ws w).highScore = w.highScore ∧
    (player_spawn ws w).enemyCount = w.enemyCount ∧
    (player_spawn ws w).maxEnemies = w.maxEnemies ∧
    (player_spawn ws w).laserUpgrade = w.laserUpgrade ∧
    (player_spawn ws w).enemies = w.enemies ∧
    (player_spawn ws w).playerLasers = w.playerLasers ∧
    (player_spawn ws w).enemyLasers = w.enemyLasers ∧
    (player_spawn ws w).explosions = w.explosions := by
  simp [player_spawn]

theorem applyStateTransition_fields (ws : WinSize) (w : World) :
    (applyStateTransition ws w).score = w.score ∧
    (applyStateTransition ws w).highScore = w.highScore ∧
    (applyStateTransition ws w).enemyCount = w.enemyCount ∧
    (applyStateTransition ws w).maxEnemies = w.maxEnemies ∧
    (applyStateTransition ws w).laserUpgrade = w.laserUpgrade ∧
    (applyStateTransition ws w).enemies = w.enemies ∧
    (applyStateTransition ws w).playerLasers = w.playerLasers ∧
    (applyStateTransition ws w).enemyLasers = w.enemyLasers ∧
    (applyStateTransition ws w).explosions = w.explosions := by
  cases hn : w.nextState with
  | none => simp [applyStateTransition, hn]
  | some s =>
    simp only [applyStateTransition, hn]
    split <;> simp [player_spawn]

theorem applyStateTransition_of_none (ws : WinSize) (w : World)
    (h : w.nextState = none) : applyStateTransition ws w = w := by
  simp [applyStateTransition, h]

theorem applyStateTransition_state_of_some (ws : WinSize) (w : World)
    (s : GameState) (h : w.nextState = some s) :
    (applyStateTransition ws w).state = s := by
  simp only [applyStateTransition, h]
  split <;> simp [player_spawn]

theorem hitScan_none_spec {l : Mob} :
    ∀ {es : List Mob}, hitScan l es = none → ∀ e ∈ es, collides l e = false := by
  intro es
  induction es with
  | nil => intro _ e he; simp at he
  | cons a rest ih =>
    intro h e he
    unfold hitScan at h
    by_cases hc : collides l a
    · simp [hc] at h
    · simp only [hc] at h
      cases hr : hitScan l rest with
      | none =>
        rcases List.mem_cons.mp he with rfl | hmem
        · simpa using hc
        · exact ih hr e hmem
      | some q => rw [hr] at h; simp at h

theorem hitScan_some_sublist {l : Mob} :
    ∀ {es es' : List Mob} {p : Vec2},
      hitScan l es = some (es', p) → es'.Sublist es := by
  intro es
  induction es with
  | nil => intro es' p h; simp [hitScan] at h
  | cons a rest ih =>
    intro es' p h
    unfold hitScan at h
    by_cases hc : collides l a
    · simp [hc] at h
      rw [← h.1]
      exact List.sublist_cons_self a rest
    · simp only [hc] at h
      cases hr : hitScan l rest with
      | none => rw [hr] at h; simp at h
      | some q =>
        rw [hr] at h
        simp at h
        have := @ih q.1 q.2 (by rw [hr])
        rw [← h.1]
        exact List.Sublist.cons₂ a this

theorem hitScan_some_hit {l : Mob} :
    ∀ {es es' : List Mob} {p : Vec2},
      hitScan l es = some (es', p) →
        ∃ e ∈ es, collides l e = true ∧ p = e.pos := by
  intro es
  induction es with
  | nil => intro es' p h; simp [hitScan] at h
  | cons a rest ih =>
    intro es' p h
    unfold hitScan at h
    by_cases hc : collides l a
    · simp [hc] at h
      exact ⟨a, by simp, hc, h.2.symm⟩
    · simp only [hc] at h
      cases hr : hitScan l rest with
      | none => rw [hr] at h; simp at h
      | some q =>
        rw [hr] at h
        simp at h
        obtain ⟨e, he, hce, hpe⟩ := @ih q.1 q.2 (by rw [hr])
        exact ⟨e, by simp [he], hce, h.2 ▸ hpe⟩

theorem plheLoop_enemies_sublist (ls : List Mob) :
    ∀ es : List Mob, (plheLoop ls es).enemies.Sublist es := by
  induction ls with
  | nil => intro es; simp [plheLoop]
  | cons l ls ih =>
    intro es
    unfold plheLoop
    cases hs : hitScan l es with
    | none => simpa using ih es
    | some q =>
      simp only []
      exact List.Sublist.trans (ih q.1) (hitScan_some_sublist hs)

theorem plheLoop_no_overlap (ls : List Mob) :
    ∀ es : List Mob, ∀ a ∈ (plheLoop ls es).lasers,
      ∀ b ∈ (plheLoop ls es).enemies, collides a b = false := by
  induction ls with
  | nil => intro es a ha; simp [plheLoop] at ha
  | cons l ls ih =>
    intro es a ha b hb
    unfold plheLoop at ha hb
    cases hs : hitScan l es with
    | none =>
      rw [hs] at ha hb
      simp only [] at ha hb
      rcases List.mem_cons.mp ha with rfl | hmem
      · exact hitScan_none_spec hs b
          (List.Sublist.mem hb (plheLoop_enemies_sublist ls es))
      · exact ih es a hmem b hb
    | some q =>
      rw [hs] at ha hb
      exact ih q.1 a ha b hb

theorem plheLoop_explosions_spec (ls : List Mob) :
    ∀ es : List Mob, ∀ ex ∈ (plheLoop ls es).explosions,
      ex.index = 0 ∧
      ∃ e ∈ es, ex.pos = e.pos ∧ ∃ l ∈ ls, collides l e = true := by
  induction ls with
  | nil => intro es ex hex; simp [plheLoop] at hex
  | cons l ls ih =>
    intro es ex hex
    unfold plheLoop at hex
    cases hs : hitScan l es with
    | none =>
      rw [hs] at hex
      simp only [] at hex
      obtain ⟨h0, e, he, hpos, l', hl', hc⟩ := ih es ex hex
      exact ⟨h0, e, he, hpos, l', by simp [hl'], hc⟩
    | some q =>
      rw [hs] at hex
      simp only [] at hex
      rcases List.mem_cons.mp hex with rfl | hmem
      · obtain ⟨e, he, hce, hpe⟩ := hitScan_some_hit hs
        exact ⟨rfl, e, he, hpe, l, by simp, hce⟩
      · obtain ⟨h0, e, he, hpos, l', hl', hc⟩ := ih q.1 ex hmem
        exact ⟨h0, e, List.Sublist.mem he (hitScan_some_sublist hs),
               hpos, l', by simp [hl'], hc⟩

theorem elhpScan_none_spec {p : Mob} :
    ∀ {ls : List Mob}, elhpScan p ls = none → ∀ l ∈ ls, collides l p = false := by
  intro ls
  induction ls with
  | nil => intro _ l hl; simp at hl
  | cons a rest ih =>
    intro h l hl
    unfold elhpScan at h
    by_cases hc : collides a p
    · simp [hc] at h
    · simp only [hc] at h
      cases hr : elhpScan p rest with
      | none =>
        rcases List.mem_cons.mp hl with rfl | hmem
        · simpa using hc
        · exact ih hr l hmem
      | some q => rw [hr] at h; simp at h

theorem elhpScan_some_length {p : Mob} :
    ∀ {ls ls' : List Mob}, elhpScan p ls = some ls' → ls'.length + 1 = ls.length := by
  intro ls
  induction ls with
  | nil => intro ls' h; simp [elhpScan] at h
  | cons a rest ih =>
    intro ls' h
    unfold elhpScan at h
    by_cases hc : collides a p
    · simp [hc] at h
      simp [← h]
    · simp only [hc] at h
      cases hr : elhpScan p rest with
      | none => rw [hr] at h; simp at h
      | some q =>
        rw [hr] at h
        simp at h
        have := @ih q (by rw [hr])
        simp [← h]
        omega

theorem updateTail_pres (ws : WinSize) (inp : Input) (P : World → Prop)
    (h3 : ∀ v, P v → P (player_input ws inp v))
    (h4 : ∀ v, P v → P (player_fire inp v))
    (h5 : ∀ v, P v → P (enemy_spawn inp v))
    (h6 : ∀ v, P v → P (enemy_move ws inp v))
    (h7 : ∀ v, P v → P (enemy_fire v))
    (h8 : ∀ v, P v → P (movement ws inp v))
    (h9 : ∀ v, v.state = GameState.Playing → P v → P (player_laser_hit_enemy v))
    (h10 : ∀ v, v.state = GameState.Playing → P v → P (enemy_laser_hit_player v))
    (h11 : ∀ v, v.state = GameState.Playing → P v → P (update_scoreboard v))
    (h12 : ∀ v, P v → P (explosion_animation inp v))
    (w : World) (hw : P w) : P (updateTail ws inp w) := by
  simp only [updateTail]
  apply h12
  refine ite_pres P _ _ _ (fun hc hv => h11 _ hc hv) ?_
  refine ite_pres P _ _ _ (fun hc hv => h10 _ hc hv) ?_
  refine ite_pres P _ _ _ (fun hc hv => h9 _ hc hv) ?_
  apply h8
  refine ite_pres P _ _ _ (fun _ hv => h7 _ hv) ?_
  apply h6
  refine ite_pres P _ _ _ (fun _ hv => h5 _ hv) ?_
  apply h4
  apply h3
  exact hw

theorem runUpdate_pres (ws : WinSize) (inp : Input) (P : World → Prop)
    (h1 : ∀ v, v.state = GameState.GameOver → P v → P (game_over v))
    (h2 : ∀ v, v.state = GameState.MainMenu → P v → P (start_game inp v))
    (h3 : ∀ v, P v → P (player_input ws inp v))
    (h4 : ∀ v, P v → P (player_fire inp v))
    (h5 : ∀ v, P v → P (enemy_spawn inp v))
    (h6 : ∀ v, P v → P (enemy_move ws inp v))
    (h7 : ∀ v, P v → P (enemy_fire v))
    (h8 : ∀ v, P v → P (movement ws inp v))
    (h9 : ∀ v, v.state = GameState.Playing → P v → P (player_laser_hit_enemy v))
    (h10 : ∀ v, v.state = GameState.Playing → P v → P (enemy_laser_hit_player v))
    (h11 : ∀ v, v.state = GameState.Playing → P v → P (update_scoreboard v))
    (h12 : ∀ v, P v → P (explosion_animation inp v))
    (w : World) (hw : P w) : P (runUpdate ws inp w) := by
  simp only [runUpdate]
  apply updateTail_pres ws inp P h3 h4 h5 h6 h7 h8 h9 h10 h11 h12
  refine ite_pres P _ _ _ (fun hc hv => h2 _ hc hv) ?_
  refine ite_pres P _ _ _ (fun hc hv => h1 _ hc hv) ?_
  exact hw

theorem player_fire_spec (inp : Input) (w : World) (p : Mob)
    (hp : w.player = some p) (hf : inp.fireJustPressed = true)
    (hn : w.playerLasers.length < PLAYER_MAX_LASERS) :
    player_fire inp w =
      { w with playerLasers := playerLaserAt w.laserUpgrade (p.pos.x + (PLAYER_SIZE.x / 2 * SPRITE_SCALE - 5)) (p.pos.y + 15) :: playerLaserAt w.laserUpgrade (p.pos.x - (PLAYER_SIZE.x / 2 * SPRITE_SCALE - 5)) (p.pos.y + 15) :: w.playerLasers } := by
  simp only [player_fire, hp]
  rw [if_pos ⟨hf, hn⟩]

theorem player_fire_no_edge (inp : Input) (w : World)
    (h : inp.fireJustPressed = false) : player_fire inp w = w := by
  cases hp : w.player with
  | none => simp [player_fire, hp]
  | some p => simp [player_fire, hp, h]

theorem player_fire_at_cap (inp : Input) (w : World)
    (h : ¬ w.playerLasers.length < PLAYER_MAX_LASERS) : player_fire inp w = w := by
  cases hp : w.player with
  | none => simp [player_fire, hp]
  | some p => simp [player_fire, hp, h]

theorem player_fire_lasers_le (inp : Input) (w : World)
    (h : w.playerLasers.length ≤ 11) :
    (player_fire inp w).playerLasers.length ≤ 11 := by
  cases hp : w.player with
  | none => simpa [player_fire, hp] using h
  | some p =>
    simp only [player_fire, hp]
    split
    next hcond =>
      have h10 := hcond.2
      simp only [PLAYER_MAX_LASERS] at h10
      simp
      omega
    next => simpa using h

theorem lasersLe_frameStep (ws : WinSize) (inp : Input) (w : World)
    (h : w.playerLasers.length ≤ 11) :
    (frameStep ws inp w).playerLasers.length ≤ 11 := by
  unfold frameStep
  have hr : (runUpdate ws inp w).playerLasers.length ≤ 11 := by
    refine runUpdate_pres ws inp (fun v => v.playerLasers.length ≤ 11)
      ?_ ?_ ?_ ?_ ?_ ?_ ?_ ?_ ?_ ?_ ?_ ?_ w h
    · intro v _ hv; simpa [game_over_fields v] using hv
    · intro v _ hv; simpa [start_game_fields inp v] using hv
    · intro v hv; simpa [player_input_fields ws inp v] using hv
    · intro v hv; exact player_fire_lasers_le inp v hv
    · intro v hv; simpa [enemy_spawn_fields inp v] using hv
    · intro v hv; simpa [enemy_move_fields ws inp v] using hv
    · intro v hv; simpa [enemy_fire_fields v] using hv
    · intro v hv
      have hm : (movement ws inp v).playerLasers =
          (v.playerLasers.map (integrateMob inp.delta)).filter
            (fun m => ! cullMob ws m) := rfl
      rw [hm]
      refine le_trans (le_trans (List.length_filter_le _ _) ?_) hv
      simp
    · intro v _ hv
      have hl : (player_laser_hit_enemy v).playerLasers =
          (plheLoop v.playerLasers v.enemies).lasers := rfl
      have := plheLoop_lasers_length v.playerLasers v.enemies
      rw [hl]
      omega
    · intro v _ hv; simpa [enemy_laser_hit_player_fields v] using hv
    · intro v _ hv; simpa [update_scoreboard_fields v] using hv
    · intro v hv; simpa [explosion_animation_fields inp v] using hv
  simpa [applyStateTransition_fields ws (runUpdate ws inp w)] using hr

theorem lasersLe_reachable {ws : WinSize} {w : World} (h : Reachable ws w) :
    w.playerLasers.length ≤ 11 := by
  induction h with
  | init hs => simp [initWorld]
  | step inp _ ih => exact lasersLe_frameStep _ _ _ ih

/-- Claim C1: at every frame boundary the enemy population counter
equals the number of live `Enemy` entities, and over any single frame
the counter changes by exactly the net number of enemies created minus
enemies destroyed (spawner increments once per spawn; out-of-bounds
cull, player-laser collisions and game-over cleanup decrement once per
destroyed enemy; nothing else mutates it). -/
theorem claim_C1_enemy_count_invariant (ws : WinSize) (w : World)
    (h : Reachable ws w) :
    w.enemyCount = (w.enemies.length : ℤ) ∧
    ∀ inp : Input,
      (frameStep ws inp w).enemyCount - w.enemyCount =
        ((frameStep ws inp w).enemies.length : ℤ) - (w.enemies.length : ℤ) := by
  have h1 := enemyInv_reachable h
  refine ⟨h1, fun inp => ?_⟩
  have h2 := enemyInv_frameStep ws inp w h1
  unfold enemyInv at h1 h2
  omega

/-- Witness for C1 at a concrete reachable state: one frame after a
fresh session in which the spawn timer fired (so one enemy is live). -/
theorem claim_C1_enemy_count_invariant_witness :
    (frameStep ws800 spawnInput (initWorld 0)).enemyCount =
      ((frameStep ws800 spawnInput (initWorld 0)).enemies.length : ℤ) :=
  (claim_C1_enemy_count_invariant ws800 _
    (Reachable.step spawnInput (Reachable.init 0))).1

/-- Claim C7: on every reachable state the unsigned enemy counter is
never taken below zero: it is non-negative, and each of the decrementing
systems (`enemy_move` out-of-bounds cull, `movement` out-of-bounds cull,
`player_laser_hit_enemy` collisions, `game_over` cleanup) decrements it
by exactly the number of live `Enemy` entities it destroys, leaving it
non-negative. -/
theorem claim_C7_no_counter_underflow (ws : WinSize) (w : World)
    (h : Reachable ws w) :
    0 ≤ w.enemyCount ∧
    ∀ inp : Input,
      ((enemy_move ws inp w).enemyCount =
          w.enemyCount -
            ((w.enemies.length : ℤ) - ((enemy_move ws inp w).enemies.length : ℤ)) ∧
        0 ≤ (enemy_move ws inp w).enemyCount) ∧
      ((movement ws inp w).enemyCount =
          w.enemyCount -
            ((w.enemies.length : ℤ) - ((movement ws inp w).enemies.length : ℤ)) ∧
        0 ≤ (movement ws inp w).enemyCount) ∧
      ((player_laser_hit_enemy w).enemyCount =
          w.enemyCount -
            ((w.enemies.length : ℤ) - ((player_laser_hit_enemy w).enemies.length : ℤ)) ∧
        0 ≤ (player_laser_hit_enemy w).enemyCount) ∧
      ((game_over w).enemyCount =
          w.enemyCount -
            ((w.enemies.length : ℤ) - ((game_over w).enemies.length : ℤ)) ∧
        0 ≤ (game_over w).enemyCount) := by
  have hInv : enemyInv w := enemyInv_reachable h
  have hnn : 0 ≤ w.enemyCount := by unfold enemyInv at hInv; omega
  refine ⟨hnn, fun inp => ?_⟩
  have h1 := enemyInv_enemy_move ws inp w hInv
  have h2 := enemyInv_movement ws inp w hInv
  have h3 := enemyInv_player_laser_hit_enemy w hInv
  have h4 := enemyInv_game_over w hInv
  unfold enemyInv at hInv h1 h2 h3 h4
  exact ⟨⟨by omega, by omega⟩, ⟨by omega, by omega⟩,
         ⟨by omega, by omega⟩, ⟨by omega, by omega⟩⟩

/-- Witness for C7 at a concrete reachable state. -/
theorem claim_C7_no_counter_underflow_witness :
    0 ≤ (frameStep ws800 spawnInput (initWorld 0)).enemyCount :=
  (claim_C7_no_counter_underflow ws800 _
    (Reachable.step spawnInput (Reachable.init 0))).1

/-- Claim C10: the number of live player lasers never exceeds 11 on any
reachable state, and the bound is tight: the fire gate only checks
`length < 10` but then spawns two lasers, so firing with exactly nine
live lasers yields eleven. -/
theorem claim_C10_laser_bound_eleven :
    (∀ (ws : WinSize) (w : World), Reachable ws w → w.playerLasers.length ≤ 11) ∧
    (∀ (inp : Input) (v : World) (p : Mob),
      v.player = some p → inp.fireJustPressed = true →
      v.playerLasers.length = 9 →
      (player_fire inp v).playerLasers.length = 11) := by
  refine ⟨fun ws w h => lasersLe_reachable h, fun inp v p hp hf h9 => ?_⟩
  rw [player_fire_spec inp v p hp hf (by simp [PLAYER_MAX_LASERS, h9])]
  simp [h9]

/-- Witness for C10: the initial state respects the bound, and firing in
a concrete `Playing` state with nine live lasers yields eleven. -/
theorem claim_C10_laser_bound_eleven_witness :
    (initWorld 0).playerLasers.length ≤ 11 ∧
    (player_fire fireInput nineWorld).playerLasers.length = 11 :=
  ⟨claim_C10_laser_bound_eleven.1 ws800 _ (Reachable.init 0),
   claim_C10_laser_bound_eleven.2 fireInput nineWorld basicMob rfl rfl (by simp [nineWorld])⟩

/-- Counterexample to C2 as stated: `enemy_spawn` (src/enemy.rs 49–51)
creates the enemy with `auto_despawn: false`, not `true`; at a fresh
session with the spawn timer fired, the one spawned enemy has
`auto_despawn = false`. -/
theorem claim_C2_counterexample :
    ¬ (∀ e ∈ (enemy_spawn spawnInput (initWorld 0)).enemies,
        e.autoDespawn = true) := by
  decide

/-- Claim C2 as amended: when the spawn timer fires and the count is
below the cap, exactly one enemy is created — at the random position
drawn from the play area shrunk by the 100-unit border, with zero
velocity and `auto_despawn = false` (the `src` revision culls enemies
itself in `enemy_move` instead of relying on `movement`) — and the count
is incremented; at or above the cap nothing changes. -/
theorem claim_C2_enemy_spawn_amended (inp : Input) (w : World) :
    (w.enemyCount < (w.maxEnemies : ℤ) →
      enemy_spawn inp w =
        { w with enemies := freshEnemy inp.randX inp.randY :: w.enemies,
                 enemyCount := w.enemyCount + 1 } ∧
      (freshEnemy inp.randX inp.randY).pos = ⟨inp.randX, inp.randY⟩ ∧
      (freshEnemy inp.randX inp.randY).vel = ⟨0, 0⟩ ∧
      (freshEnemy inp.randX inp.randY).autoDespawn = false ∧
      ∀ ws : WinSize,
        -(ws.w / 2 - 100) ≤ inp.randX → inp.randX < ws.w / 2 - 100 →
        -(ws.h / 2 - 100) ≤ inp.randY → inp.randY < ws.h / 2 - 100 →
        (-(ws.w / 2 - 100) ≤ (freshEnemy inp.randX inp.randY).pos.x ∧
          (freshEnemy inp.randX inp.randY).pos.x < ws.w / 2 - 100 ∧
          -(ws.h / 2 - 100) ≤ (freshEnemy inp.randX inp.randY).pos.y ∧
          (freshEnemy inp.randX inp.randY).pos.y < ws.h / 2 - 100)) ∧
    (¬ w.enemyCount < (w.maxEnemies : ℤ) → enemy_spawn inp w = w) := by
  constructor
  · intro h
    refine ⟨by simp [enemy_spawn, h], rfl, rfl, rfl,
            fun ws h1 h2 h3 h4 => ⟨h1, h2, h3, h4⟩⟩
  · intro h
    simp [enemy_spawn, h]

/-- Witness for the amended C2: a fresh session with the timer fired
spawns exactly the origin enemy and sets the count to 1. -/
theorem claim_C2_enemy_spawn_amended_witness :
    enemy_spawn spawnInput (initWorld 0) =
      { (initWorld 0) with enemies := [freshEnemy 0 0], enemyCount := 1 } := by
  have h := (claim_C2_enemy_spawn_amended spawnInput (initWorld 0)).1 (by decide)
  rw [h.1]
  norm_num [spawnInput, quietInput, initWorld]

/-- Claim C8: player fire is edge-triggered and capped.  With a live
player, a rising edge of the fire key and strictly fewer than
`PLAYER_MAX_LASERS` live player lasers, exactly two `PlayerLaser`
entities are spawned, symmetrically offset from the player, with upward
velocity `y = 1` — or `y = 2` and the distinct upgrade sprite when the
laser upgrade is active — and `auto_despawn = true`.  A held key with no
rising edge spawns nothing, and at or above the cap nothing is
spawned. -/
theorem claim_C8_player_fire_spec (inp : Input) (w : World) :
    (∀ p : Mob, w.player = some p → inp.fireJustPressed = true →
      w.playerLasers.length < PLAYER_MAX_LASERS →
      player_fire inp w =
        { w with playerLasers := playerLaserAt w.laserUpgrade (p.pos.x + (PLAYER_SIZE.x / 2 * SPRITE_SCALE - 5)) (p.pos.y + 15) :: playerLaserAt w.laserUpgrade (p.pos.x - (PLAYER_SIZE.x / 2 * SPRITE_SCALE - 5)) (p.pos.y + 15) :: w.playerLasers }) ∧
    (∀ (u : Bool) (x y : ℚ),
      (playerLaserAt u x y).vel = ⟨0, if u then 2 else 1⟩ ∧
      (playerLaserAt u x y).altSprite = u ∧
      (playerLaserAt u x y).autoDespawn = true ∧
      (playerLaserAt u x y).pos = ⟨x, y⟩) ∧
    (inp.firePressed = true → inp.fireJustPressed = false →
      player_fire inp w = w) ∧
    (¬ w.playerLasers.length < PLAYER_MAX_LASERS → player_fire inp w = w) := by
  refine ⟨fun p hp hf hn => player_fire_spec inp w p hp hf hn,
          fun u x y => ⟨rfl, rfl, rfl, rfl⟩,
          fun _ hf => player_fire_no_edge inp w hf,
          fun hn => player_fire_at_cap inp w hn⟩

/-- Witness for C8: firing at nine lasers spawns the two concrete
lasers; a held key without an edge is a no-op. -/
theorem claim_C8_player_fire_spec_witness :
    player_fire fireInput nineWorld =
      { nineWorld with playerLasers := playerLaserAt false 31 15 :: playerLaserAt false (-31) 15 :: nineWorld.playerLasers } ∧
    player_fire heldFireInput nineWorld = nineWorld := by
  constructor
  · have h := (claim_C8_player_fire_spec fireInput nineWorld).1 basicMob rfl rfl
      (by simp [nineWorld, PLAYER_MAX_LASERS])
    rw [h]
    norm_num [nineWorld, basicMob, playerLaserAt, PLAYER_SIZE, SPRITE_SCALE, initWorld]
  · exact (claim_C8_player_fire_spec heldFireInput nineWorld).2.2.1 rfl rfl

/-- Counterexample to C9 as stated: `start_game` tests
`input.pressed(Enter)`, a level query, so with the confirm key merely
held down (no rising edge) the `MainMenu` world still transitions to
`Playing`. -/
theorem claim_C9_counterexample :
    heldConfirmInput.confirmJustPressed = false ∧
    (start_game heldConfirmInput menuWorld).nextState =
      some GameState.Playing :=
  ⟨rfl, rfl⟩

/-- Claim C9 as amended: the `MainMenu` → `Playing` transition is
level-triggered — it fires on any frame on which confirm is pressed,
held or not — and on it the score is reset to 0 and all menu entities
are despawned; when confirm is not pressed nothing changes, and in any
other state the scheduled guard keeps `start_game` from running at
all. -/
theorem claim_C9_start_game_amended (inp : Input) (w : World) :
    (inp.confirmPressed = true →
      start_game inp w =
        { w with menuTexts := 0, score := 0,
                 nextState := some GameState.Playing }) ∧
    (inp.confirmPressed = false → start_game inp w = w) ∧
    (∀ v : World, v.state ≠ GameState.MainMenu →
      (if v.state = GameState.MainMenu then start_game inp v else v) = v) := by
  refine ⟨fun h => by simp [start_game, h],
          fun h => by simp [start_game, h],
          fun v hv => by rw [if_neg hv]⟩

/-- Witness for the amended C9: the held key starts the game from the
concrete menu world, resetting the score. -/
theorem claim_C9_start_game_amended_witness :
    start_game heldConfirmInput menuWorld =
      { menuWorld with menuTexts := 0, score := 0,
                       nextState := some GameState.Playing } :=
  (claim_C9_start_game_amended heldConfirmInput menuWorld).1 rfl

theorem elhpScan_eq_none {p : Mob} :
    ∀ {ls : List Mob},
      elhpScan p ls = none ↔ ∀ l ∈ ls, collides l p = false := by
  intro ls
  induction ls with
  | nil => simp [elhpScan]
  | cons a rest ih =>
    constructor
    · exact fun h => elhpScan_none_spec h
    · intro h
      unfold elhpScan
      have ha : collides a p = false := h a (by simp)
      simp only [ha]
      rw [ih.mpr (fun l hl => h l (by simp [hl]))]
      simp [ha]

/-- Claim C4: in the `Playing` state, when an enemy laser overlaps the
player, the first such laser and the player are both destroyed, exactly
one explosion is created at the player's position with frame index 0,
and the `GameOver` state is requested; the pass stops at the first hit,
so even with several overlapping lasers the player dies once and
exactly one explosion and one laser removal happen; with no overlapping
laser nothing changes, and outside `Playing` the guarded system does not
run. -/
theorem claim_C4_enemy_laser_hit_player (w : World) (p : Mob)
    (hp : w.player = some p) :
    ((∃ l ∈ w.enemyLasers, collides l p = true) →
      (enemy_laser_hit_player w).player = none ∧
      (enemy_laser_hit_player w).explosions = ⟨p.pos, 0⟩ :: w.explosions ∧
      (enemy_laser_hit_player w).nextState = some GameState.GameOver ∧
      (enemy_laser_hit_player w).enemyLasers.length + 1 =
        w.enemyLasers.length) ∧
    ((∀ l ∈ w.enemyLasers, collides l p = false) →
      enemy_laser_hit_player w = w) ∧
    (∀ v : World, v.state ≠ GameState.Playing →
      (if v.state = GameState.Playing then enemy_laser_hit_player v else v) = v) := by
  refine ⟨?_, ?_, fun v hv => by rw [if_neg hv]⟩
  · rintro ⟨l, hl, hc⟩
    cases hs : elhpScan p w.enemyLasers with
    | none =>
      have := elhpScan_none_spec hs l hl
      rw [hc] at this
      cases this
    | some ls' =>
      have hlen := elhpScan_some_length hs
      refine ⟨?_, ?_, ?_, ?_⟩ <;>
        simp [enemy_laser_hit_player, hp, hs, hlen]
  · intro hmiss
    have hs : elhpScan p w.enemyLasers = none := elhpScan_eq_none.mpr hmiss
    simp [enemy_laser_hit_player, hp, hs]

/-- Witness for C4: in the concrete world where two enemy lasers overlap
the player, the player is destroyed exactly once, one explosion is
created at its position, `GameOver` is requested, and exactly one of the
two lasers is consumed. -/
theorem claim_C4_enemy_laser_hit_player_witness :
    (enemy_laser_hit_player hitWorld).player = none ∧
    (enemy_laser_hit_player hitWorld).explosions =
      [⟨basicMob.pos, 0⟩] ∧
    (enemy_laser_hit_player hitWorld).nextState = some GameState.GameOver ∧
    (enemy_laser_hit_player hitWorld).enemyLasers.length + 1 = 2 := by
  have h := (claim_C4_enemy_laser_hit_player hitWorld basicMob rfl).1
    ⟨enemyLaserAt 0 0, by simp [hitWorld],
     by norm_num [collides, aabbIntersects, halfExtent, Vec2.half, Vec2.hmul,
                  enemyLaserAt, basicMob, ENEMY_LASER_SIZE, PLAYER_SIZE,
                  SPRITE_SCALE]⟩
  simpa [hitWorld] using h

/-- Claim C3: the player-laser/enemy pass — with the inclusive AABB
test on half-extents `size * scale / 2` — resolves each overlapping
not-yet-consumed pair exactly once: afterwards no surviving laser
overlaps a surviving enemy; some `n` collisions were resolved,
destroying `n` lasers and `n` enemies, adding `n` to the score,
subtracting `n` from the enemy count, and creating exactly `n`
explosions, each with frame index 0 at the former position of a hit
enemy; nothing else changes, and outside `Playing` the guarded system
does not run. -/
theorem claim_C3_player_laser_hit_enemy (w : World) :
    (∀ a ∈ (player_laser_hit_enemy w).playerLasers,
      ∀ b ∈ (player_laser_hit_enemy w).enemies, collides a b = false) ∧
    (∃ n : ℕ,
      (player_laser_hit_enemy w).score = w.score + n ∧
      (player_laser_hit_enemy w).enemyCount = w.enemyCount - n ∧
      (player_laser_hit_enemy w).enemies.length + n = w.enemies.length ∧
      (player_laser_hit_enemy w).playerLasers.length + n =
        w.playerLasers.length ∧
      ∃ newEx : List Explosion,
        (player_laser_hit_enemy w).explosions = newEx ++ w.explosions ∧
        newEx.length = n ∧
        ∀ ex ∈ newEx, ex.index = 0 ∧
          ∃ e ∈ w.enemies, ex.pos = e.pos ∧
            ∃ l ∈ w.playerLasers, collides l e = true) ∧
    ((player_laser_hit_enemy w).player = w.player ∧
      (player_laser_hit_enemy w).enemyLasers = w.enemyLasers ∧
      (player_laser_hit_enemy w).state = w.state ∧
      (player_laser_hit_enemy w).nextState = w.nextState) ∧
    (∀ a b : Mob, collides a b = true ↔
      (|a.pos.x - b.pos.x| * 2 ≤
          a.spriteSize.x * a.scale.x + b.spriteSize.x * b.scale.x ∧
        |a.pos.y - b.pos.y| * 2 ≤
          a.spriteSize.y * a.scale.y + b.spriteSize.y * b.scale.y)) ∧
    (∀ v : World, v.state ≠ GameState.Playing →
      (if v.state = GameState.Playing then player_laser_hit_enemy v else v) = v) := by
  refine ⟨?_, ?_, ?_, ?_, fun v hv => by rw [if_neg hv]⟩
  · exact plheLoop_no_overlap w.playerLasers w.enemies
  · refine ⟨(plheLoop w.playerLasers w.enemies).hits, rfl, rfl, ?_, ?_,
      (plheLoop w.playerLasers w.enemies).explosions, rfl,
      plheLoop_explosions_length w.playerLasers w.enemies,
      plheLoop_explosions_spec w.playerLasers w.enemies⟩
    · exact plheLoop_enemies_length w.playerLasers w.enemies
    · exact plheLoop_lasers_length w.playerLasers w.enemies
  · exact ⟨rfl, rfl, rfl, rfl⟩
  · intro a b
    simp only [collides, aabbIntersects, halfExtent, Vec2.half, Vec2.hmul,
               Bool.and_eq_true, decide_eq_true_eq, ge_iff_le]
    constructor
    · rintro ⟨⟨⟨h1, h2⟩, h3⟩, h4⟩
      constructor
      · have : |a.pos.x - b.pos.x| ≤
            (a.spriteSize.x * a.scale.x + b.spriteSize.x * b.scale.x) / 2 :=
          abs_sub_le_iff.mpr ⟨by linarith, by linarith⟩
        linarith [this]
      · have : |a.pos.y - b.pos.y| ≤
            (a.spriteSize.y * a.scale.y + b.spriteSize.y * b.scale.y) / 2 :=
          abs_sub_le_iff.mpr ⟨by linarith, by linarith⟩
        linarith [this]
    · rintro ⟨hx, hy⟩
      have hx2 := abs_sub_le_iff.mp (by linarith :
        |a.pos.x - b.pos.x| ≤
          (a.spriteSize.x * a.scale.x + b.spriteSize.x * b.scale.x) / 2)
      have hy2 := abs_sub_le_iff.mp (by linarith :
        |a.pos.y - b.pos.y| ≤
          (a.spriteSize.y * a.scale.y + b.spriteSize.y * b.scale.y) / 2)
      exact ⟨⟨⟨by linarith [hx2.1], by linarith [hx2.2]⟩,
             by linarith [hy2.1]⟩, by linarith [hy2.2]⟩

theorem frameStep_cap_latch (ws : WinSize) (inp : Input) (w : World)
    (hs : w.state ≠ GameState.GameOver) (h10 : w.maxEnemies = 10) :
    (frameStep ws inp w).maxEnemies = 10 := by
  unfold frameStep
  have hP : (runUpdate ws inp w).maxEnemies = 10 ∧
      (runUpdate ws inp w).state ≠ GameState.GameOver := by
    refine runUpdate_pres ws inp
      (fun v => v.maxEnemies = 10 ∧ v.state ≠ GameState.GameOver)
      ?_ ?_ ?_ ?_ ?_ ?_ ?_ ?_ ?_ ?_ ?_ ?_ w ⟨h10, hs⟩
    · intro v hc hv; exact absurd hc hv.2
    · intro v _ hv
      exact ⟨by simp [start_game_fields inp v, hv.1],
             by simpa [start_game_fields inp v] using hv.2⟩
    · intro v hv
      exact ⟨by simp [player_input_fields ws inp v, hv.1],
             by simpa [player_input_fields ws inp v] using hv.2⟩
    · intro v hv
      exact ⟨by simp [player_fire_fields inp v, hv.1],
             by simpa [player_fire_fields inp v] using hv.2⟩
    · intro v hv
      exact ⟨by simp [enemy_spawn_fields inp v, hv.1],
             by simpa [enemy_spawn_fields inp v] using hv.2⟩
    · intro v hv
      exact ⟨by simp [enemy_move_fields ws inp v, hv.1],
             by simpa [enemy_move_fields ws inp v] using hv.2⟩
    · intro v hv
      exact ⟨by simp [enemy_fire_fields v, hv.1],
             by simpa [enemy_fire_fields v] using hv.2⟩
    · intro v hv
      exact ⟨by simp [movement_fields ws inp v, hv.1],
             by simpa [movement_fields ws inp v] using hv.2⟩
    · intro v _ hv
      exact ⟨by simp [player_laser_hit_enemy_fields v, hv.1],
             by simpa [player_laser_hit_enemy_fields v] using hv.2⟩
    · intro v _ hv
      exact ⟨by simp [enemy_laser_hit_player_fields v, hv.1],
             by simpa [enemy_laser_hit_player_fields v] using hv.2⟩
    · intro v _ hv
      refine ⟨?_, by simpa [update_scoreboard_fields v] using hv.2⟩
      rw [update_scoreboard_maxEnemies]
      split <;> simp [hv.1]
    · intro v hv
      exact ⟨by simp [explosion_animation_fields inp v, hv.1],
             by simpa [explosion_animation_fields inp v] using hv.2⟩
  simpa [applyStateTransition_fields ws (runUpdate ws inp w)] using hP.1

theorem frameStep_upgrade_latch (ws : WinSize) (inp : Input) (w : World)
    (hs : w.state ≠ GameState.GameOver) (hup : w.laserUpgrade = true) :
    (frameStep ws inp w).laserUpgrade = true := by
  unfold frameStep
  have hP : (runUpdate ws inp w).laserUpgrade = true ∧
      (runUpdate ws inp w).state ≠ GameState.GameOver := by
    refine runUpdate_pres ws inp
      (fun v => v.laserUpgrade = true ∧ v.state ≠ GameState.GameOver)
      ?_ ?_ ?_ ?_ ?_ ?_ ?_ ?_ ?_ ?_ ?_ ?_ w ⟨hup, hs⟩
    · intro v hc hv; exact absurd hc hv.2
    · intro v _ hv
      exact ⟨by simp [start_game_fields inp v, hv.1],
             by simpa [start_game_fields inp v] using hv.2⟩
    · intro v hv
      exact ⟨by simp [player_input_fields ws inp v, hv.1],
             by simpa [player_input_fields ws inp v] using hv.2⟩
    · intro v hv
      exact ⟨by simp [player_fire_fields inp v, hv.1],
             by simpa [player_fire_fields inp v] using hv.2⟩
    · intro v hv
      exact ⟨by simp [enemy_spawn_fields inp v, hv.1],
             by simpa [enemy_spawn_fields inp v] using hv.2⟩
    · intro v hv
      exact ⟨by simp [enemy_move_fields ws inp v, hv.1],
             by simpa [enemy_move_fields ws inp v] using hv.2⟩
    · intro v hv
      exact ⟨by simp [enemy_fire_fields v, hv.1],
             by simpa [enemy_fire_fields v] using hv.2⟩
    · intro v hv
      exact ⟨by simp [movement_fields ws inp v, hv.1],
             by simpa [movement_fields ws inp v] using hv.2⟩
    · intro v _ hv
      exact ⟨by simp [player_laser_hit_enemy_fields v, hv.1],
             by simpa [player_laser_hit_enemy_fields v] using hv.2⟩
    · intro v _ hv
      exact ⟨by simp [enemy_laser_hit_player_fields v, hv.1],
             by simpa [enemy_laser_hit_player_fields v] using hv.2⟩
    · intro v _ hv
      refine ⟨?_, by simpa [update_scoreboard_fields v] using hv.2⟩
      rw [update_scoreboard_laserUpgrade]
      split <;> simp [hv.1]
    · intro v hv
      exact ⟨by simp [explosion_animation_fields inp v, hv.1],
             by simpa [explosion_animation_fields inp v] using hv.2⟩
  simpa [applyStateTransition_fields ws (runUpdate ws inp w)] using hP.1

theorem updateTail_gameOver_track (ws : WinSize) (inp : Input)
    (Q : World → Prop)
    (hq3 : ∀ v, Q v → Q (player_input ws inp v))
    (hq4 : ∀ v, Q v → Q (player_fire inp v))
    (hq5 : ∀ v, Q v → Q (enemy_spawn inp v))
    (hq6 : ∀ v, Q v → Q (enemy_move ws inp v))
    (hq7 : ∀ v, Q v → Q (enemy_fire v))
    (hq8 : ∀ v, Q v → Q (movement ws inp v))
    (hq12 : ∀ v, Q v → Q (explosion_animation inp v))
    (hqs : ∀ v, Q v → v.state = GameState.GameOver)
    (w : World) (hw : Q w) : Q (updateTail ws inp w) := by
  refine updateTail_pres ws inp Q hq3 hq4 hq5 hq6 hq7 hq8 ?_ ?_ ?_ hq12 w hw
  all_goals
    intro v hc hv
    rw [hqs v hv] at hc
    exact absurd hc (by decide)

theorem frameStep_gameOver_resets (ws : WinSize) (inp : Input) (w : World)
    (hs : w.state = GameState.GameOver) :
    (frameStep ws inp w).maxEnemies = 3 ∧
    (frameStep ws inp w).laserUpgrade = false := by
  unfold frameStep
  have hgo : ¬ (game_over w).state = GameState.MainMenu := by
    rw [(game_over_fields w).1, hs]
    decide
  have hP : (runUpdate ws inp w).maxEnemies = 3 ∧
      (runUpdate ws inp w).laserUpgrade = false ∧
      (runUpdate ws inp w).state = GameState.GameOver := by
    simp only [runUpdate]
    rw [if_pos hs, if_neg hgo]
    refine updateTail_gameOver_track ws inp
      (fun v => v.maxEnemies = 3 ∧ v.laserUpgrade = false ∧
        v.state = GameState.GameOver)
      ?_ ?_ ?_ ?_ ?_ ?_ ?_ (fun v hv => hv.2.2) (game_over w)
      ⟨(game_over_fields w).2.2.2.2.2.2.1,
       (game_over_fields w).2.2.2.2.2.2.2.1,
       by rw [(game_over_fields w).1]; exact hs⟩
    · intro v hv
      simp [player_input_fields ws inp v, hv.1, hv.2.1, hv.2.2]
    · intro v hv
      simp [player_fire_fields inp v, hv.1, hv.2.1, hv.2.2]
    · intro v hv
      simp [enemy_spawn_fields inp v, hv.1, hv.2.1, hv.2.2]
    · intro v hv
      simp [enemy_move_fields ws inp v, hv.1, hv.2.1, hv.2.2]
    · intro v hv
      simp [enemy_fire_fields v, hv.1, hv.2.1, hv.2.2]
    · intro v hv
      simp [movement_fields ws inp v, hv.1, hv.2.1, hv.2.2]
    · intro v hv
      simp [explosion_animation_fields inp v, hv.1, hv.2.1, hv.2.2]
  refine ⟨?_, ?_⟩ <;>
    simp [applyStateTransition_fields ws (runUpdate ws inp w), hP.1, hP.2.1]

theorem frameStep_gameOver_stays (ws : WinSize) (inp : Input) (w : World)
    (hs : w.state = GameState.GameOver) (hn : w.nextState = none)
    (he : w.explosions ≠ []) :
    (frameStep ws inp w).state = GameState.GameOver := by
  unfold frameStep
  have hgo : ¬ (game_over w).state = GameState.MainMenu := by
    rw [(game_over_fields w).1, hs]
    decide
  have hgn : (game_over w).nextState = none := by
    rw [game_over_nextState, if_neg, hn]
    simpa using he
  have hP : (runUpdate ws inp w).nextState = none ∧
      (runUpdate ws inp w).state = GameState.GameOver := by
    simp only [runUpdate]
    rw [if_pos hs, if_neg hgo]
    refine updateTail_gameOver_track ws inp
      (fun v => v.nextState = none ∧ v.state = GameState.GameOver)
      ?_ ?_ ?_ ?_ ?_ ?_ ?_ (fun v hv => hv.2) (game_over w)
      ⟨hgn, by rw [(game_over_fields w).1]; exact hs⟩
    · intro v hv
      simp [player_input_fields ws inp v, hv.1, hv.2]
    · intro v hv
      simp [player_fire_fields inp v, hv.1, hv.2]
    · intro v hv
      simp [enemy_spawn_fields inp v, hv.1, hv.2]
    · intro v hv
      simp [enemy_move_fields ws inp v, hv.1, hv.2]
    · intro v hv
      simp [enemy_fire_fields v, hv.1, hv.2]
    · intro v hv
      simp [movement_fields ws inp v, hv.1, hv.2]
    · intro v hv
      simp [explosion_animation_fields inp v, hv.1, hv.2]
  rw [applyStateTransition_of_none ws _ hP.1]
  exact hP.2

theorem frameStep_gameOver_leaves (ws : WinSize) (inp : Input) (w : World)
    (hs : w.state = GameState.GameOver)
    (he : w.explosions = []) :
    (frameStep ws inp w).state = GameState.MainMenu := by
  unfold frameStep
  have hgo : ¬ (game_over w).state = GameState.MainMenu := by
    rw [(game_over_fields w).1, hs]
    decide
  have hgn : (game_over w).nextState = some GameState.MainMenu := by
    rw [game_over_nextState, if_pos]
    simp [he]
  have hP : (runUpdate ws inp w).nextState = some GameState.MainMenu ∧
      (runUpdate ws inp w).state = GameState.GameOver := by
    simp only [runUpdate]
    rw [if_pos hs, if_neg hgo]
    refine updateTail_gameOver_track ws inp
      (fun v => v.nextState = some GameState.MainMenu ∧
        v.state = GameState.GameOver)
      ?_ ?_ ?_ ?_ ?_ ?_ ?_ (fun v hv => hv.2) (game_over w)
      ⟨hgn, by rw [(game_over_fields w).1]; exact hs⟩
    · intro v hv
      simp [player_input_fields ws inp v, hv.1, hv.2]
    · intro v hv
      simp [player_fire_fields inp v, hv.1, hv.2]
    · intro v hv
      simp [enemy_spawn_fields inp v, hv.1, hv.2]
    · intro v hv
      simp [enemy_move_fields ws inp v, hv.1, hv.2]
    · intro v hv
      simp [enemy_fire_fields v, hv.1, hv.2]
    · intro v hv
      simp [movement_fields ws inp v, hv.1, hv.2]
    · intro v hv
      simp [explosion_animation_fields inp v, hv.1, hv.2]
  exact applyStateTransition_state_of_some ws _ _ hP.1

/-- Counterexample to C5 as stated: the progression check is
`score == 5`, an equality test run once per frame, while one collision
pass can raise the score by more than 1.  In `pairWorld` (score 4, cap
3, two lasers over two enemies) the `Playing`-frame pair
collision-pass-then-scoreboard takes the score from 4 to 6, so the
score has reached 5 but the enemy cap remains 3 — and by the amended
latching facts it stays 3 for the rest of the session. -/
theorem claim_C5_counterexample :
    pairWorld.maxEnemies = 3 ∧ pairWorld.score = 4 ∧
    5 ≤ (update_scoreboard (player_laser_hit_enemy pairWorld)).score ∧
    (update_scoreboard (player_laser_hit_enemy pairWorld)).maxEnemies = 3 := by
  have hc1 : collides (playerLaserAt false 0 0) (freshEnemy 0 0) = true := by
    norm_num [collides, aabbIntersects, halfExtent, Vec2.half, Vec2.hmul,
      playerLaserAt, freshEnemy, PLAYER_LASER_SIZE, ENEMY_SIZE, SPRITE_SCALE]
  have hc2 : collides (playerLaserAt false 300 0) (freshEnemy 300 0) = true := by
    norm_num [collides, aabbIntersects, halfExtent, Vec2.half, Vec2.hmul,
      playerLaserAt, freshEnemy, PLAYER_LASER_SIZE, ENEMY_SIZE, SPRITE_SCALE]
  have hloop : plheLoop pairWorld.playerLasers pairWorld.enemies =
      ⟨[], [], [⟨⟨0, 0⟩, 0⟩, ⟨⟨300, 0⟩, 0⟩], 2⟩ := by
    have hl : pairWorld.playerLasers =
        [playerLaserAt false 0 0, playerLaserAt false 300 0] := rfl
    have he : pairWorld.enemies = [freshEnemy 0 0, freshEnemy 300 0] := rfl
    rw [hl, he]
    simp only [plheLoop, hitScan, hc1, hc2, if_true]
    simp [freshEnemy]
  have hplhe : player_laser_hit_enemy pairWorld =
      { pairWorld with
          playerLasers := [], enemies := [],
          explosions := [⟨⟨0, 0⟩, 0⟩, ⟨⟨300, 0⟩, 0⟩],
          score := 6, enemyCount := 0 } := by
    simp only [player_laser_hit_enemy, hloop]
    norm_num [pairWorld, initWorld]
  refine ⟨rfl, rfl, ?_, ?_⟩ <;>
    rw [hplhe] <;>
    simp [update_scoreboard, pairWorld, initWorld, LASER_UPGRADE_SCORE]

/-- Claim C5 as amended: the enemy cap starts at 3 and the upgrade flag
false; `update_scoreboard` steps them up exactly on a frame whose score
is then exactly 5 (resp. exactly 50) — because the score can rise by
more than 1 in one frame, those values can be skipped, in which case no
step-up happens; once stepped up, each value persists through every
frame that does not start in `GameOver` (the step-up is latched), and
every frame that starts in `GameOver` resets the cap to 3 and the flag
to false. -/
theorem claim_C5_progression_amended :
    (∀ hs : ℕ, (initWorld hs).maxEnemies = 3 ∧ (initWorld hs).laserUpgrade = false) ∧
    (∀ v : World,
      (update_scoreboard v).maxEnemies = (if v.score = 5 then 10 else v.maxEnemies) ∧
      (update_scoreboard v).laserUpgrade =
        (if v.score = LASER_UPGRADE_SCORE then true else v.laserUpgrade)) ∧
    (∀ (ws : WinSize) (inp : Input) (v : World), v.state ≠ GameState.GameOver →
      (v.maxEnemies = 10 → (frameStep ws inp v).maxEnemies = 10) ∧
      (v.laserUpgrade = true → (frameStep ws inp v).laserUpgrade = true)) ∧
    (∀ (ws : WinSize) (inp : Input) (v : World), v.state = GameState.GameOver →
      (frameStep ws inp v).maxEnemies = 3 ∧
      (frameStep ws inp v).laserUpgrade = false) := by
  refine ⟨fun hs => ⟨rfl, rfl⟩,
          fun v => ⟨update_scoreboard_maxEnemies v, update_scoreboard_laserUpgrade v⟩,
          fun ws inp v hv => ⟨frameStep_cap_latch ws inp v hv,
                              frameStep_upgrade_latch ws inp v hv⟩,
          fun ws inp v hv => frameStep_gameOver_resets ws inp v hv⟩

/-- Witness for the amended C5: the stepped-up values survive a concrete
`Playing` frame and are reset by a concrete `GameOver` frame. -/
theorem claim_C5_progression_amended_witness :
    (frameStep ws800 quietInput capWorld).maxEnemies = 10 ∧
    (frameStep ws800 quietInput capWorld).laserUpgrade = true ∧
    (frameStep ws800 quietInput goWorld).maxEnemies = 3 ∧
    (frameStep ws800 quietInput goWorld).laserUpgrade = false :=
  ⟨(claim_C5_progression_amended.2.2.1 ws800 quietInput capWorld (by decide)).1 rfl,
   (claim_C5_progression_amended.2.2.1 ws800 quietInput capWorld (by decide)).2 rfl,
   (claim_C5_progression_amended.2.2.2 ws800 quietInput goWorld rfl).1,
   (claim_C5_progression_amended.2.2.2 ws800 quietInput goWorld rfl).2⟩

/-- Counterexample to C6 as stated: on a `GameOver` frame with a live
explosion and a session score above the persisted high score, the high
score is not updated — `game_over` only compares and persists it inside
the zero-explosions branch, i.e. on the transition frame. -/
theorem claim_C6_counterexample :
    goWorld.highScore < goWorld.score ∧
    goWorld.explosions ≠ [] ∧
    (game_over goWorld).highScore = goWorld.highScore ∧
    ¬ (game_over goWorld).highScore = goWorld.score := by
  have h : (game_over goWorld).highScore = goWorld.highScore := by
    rw [game_over_highScore goWorld]
    norm_num [goWorld, initWorld]
  refine ⟨by decide, by decide, h, ?_⟩
  rw [h]
  decide

/-- Claim C6 as amended: while in `GameOver`, the transition to
`MainMenu` is requested on a frame iff zero `Explosion` entities are
live on it (a polling guard, not a timer), and the frame then ends in
`MainMenu`; while an explosion lives, the frame ends still in
`GameOver`.  Every `game_over` run resets the cap and the upgrade flag
and despawns each remaining enemy, decrementing the counter once per
enemy; the persisted high score is updated on the transition frame
only, exactly when the session score exceeds it. -/
theorem claim_C6_game_over_amended :
    (∀ w : World, w.nextState = none →
      ((game_over w).nextState = some GameState.MainMenu ↔ w.explosions = [])) ∧
    (∀ w : World,
      (game_over w).maxEnemies = 3 ∧ (game_over w).laserUpgrade = false ∧
      (game_over w).enemies = [] ∧
      (game_over w).enemyCount = w.enemyCount - w.enemies.length) ∧
    (∀ w : World,
      (game_over w).highScore =
        if w.explosions = [] then
          (if w.highScore < w.score then w.score else w.highScore)
        else w.highScore) ∧
    (∀ (ws : WinSize) (inp : Input) (w : World),
      w.state = GameState.GameOver → w.nextState = none →
      (w.explosions ≠ [] → (frameStep ws inp w).state = GameState.GameOver) ∧
      (w.explosions = [] → (frameStep ws inp w).state = GameState.MainMenu)) := by
  refine ⟨?_, ?_, ?_, ?_⟩
  · intro w hn
    rw [game_over_nextState, hn]
    constructor
    · intro h
      by_cases he : w.explosions.length = 0
      · exact List.length_eq_zero.mp he
      · rw [if_neg he] at h
        cases h
    · intro h
      rw [if_pos (by simp [h])]
  · intro w
    exact ⟨(game_over_fields w).2.2.2.2.2.2.1,
           (game_over_fields w).2.2.2.2.2.2.2.1,
           (game_over_fields w).2.2.2.2.2.2.2.2.1,
           (game_over_fields w).2.2.2.2.2.2.2.2.2⟩
  · intro w
    rw [game_over_highScore w]
    by_cases he : w.explosions = []
    · rw [if_pos (by simp [he]), if_pos he]
    · rw [if_neg (by simpa using he), if_neg he]
  · intro ws inp w hs hn
    exact ⟨fun he => frameStep_gameOver_stays ws inp w hs hn he,
           fun he => frameStep_gameOver_leaves ws inp w hs he⟩

/-- Witness for the amended C6 at concrete worlds: with a live explosion
the frame stays in `GameOver` and the high score is untouched; once the
explosions are gone the transition is requested, the high score is
updated, and the frame ends in `MainMenu`. -/
theorem claim_C6_game_over_amended_witness :
    (frameStep ws800 quietInput goWorld).state = GameState.GameOver ∧
    (game_over doneWorld).nextState = some GameState.MainMenu ∧
    (game_over doneWorld).highScore = 10 ∧
    (frameStep ws800 quietInput doneWorld).state = GameState.MainMenu := by
  refine ⟨(claim_C6_game_over_amended.2.2.2 ws800 quietInput goWorld rfl rfl).1
            (by decide),
          (claim_C6_game_over_amended.1 doneWorld rfl).mpr rfl,
          ?_,
          (claim_C6_game_over_amended.2.2.2 ws800 quietInput doneWorld rfl rfl).2 rfl⟩
  rw [claim_C6_game_over_amended.2.2.1 doneWorld]
  norm_num [doneWorld, goWorld, initWorld]

/-- Witness for C3 at concrete inputs: the hypothesised guard conjunct
instantiated outside `Playing` (the pass does not run in the menu), and
the collision-test conjunct instantiated at two concrete touching
mobs. -/
theorem claim_C3_player_laser_hit_enemy_witness :
    (if menuWorld.state = GameState.Playing
      then player_laser_hit_enemy menuWorld else menuWorld) = menuWorld ∧
    collides basicMob basicMob = true :=
  ⟨(claim_C3_player_laser_hit_enemy menuWorld).2.2.2.2 menuWorld
    (by simp [menuWorld, initWorld]),
   ((claim_C3_player_laser_hit_enemy menuWorld).2.2.2.1 basicMob basicMob).mpr
    (by norm_num [basicMob, PLAYER_SIZE, SPRITE_SCALE])⟩

end RustInvaders
